import Mathlib

/-
  Verification development for the DiskSight directory-traversal engine
  (src-tauri/src/dir_listing.rs and src-tauri/src/dir_listing_v2.rs).

  The filesystem is modelled as a tree whose nodes carry the outcome of
  every fallible OS interaction the Rust code performs on them (readdir
  enumeration, stat/metadata, canonicalization, creation-time read), so
  that each `match ... { Ok / Err }` in the source becomes a boolean test
  on the node.  Machine integers (u64 sizes) are modelled as Nat: the
  code only adds sizes and Rust's `iter().sum::<u64>()` panics rather
  than wraps on overflow in debug builds, so no wrap-around semantics is
  part of the observable contract being checked here.
-/

namespace DiskSight

/-- Outcome flags and data for the fallible metadata operations the Rust
code performs on one directory entry.  `entOk` models the `Result` of the
`read_dir` iterator yielding this entry (`entries.flatten()` /
`filter_map` drops `Err` items); `metaOk` models `metadata()` succeeding;
`readonly` is `metadata.permissions().readonly()`; `canonOk`/`canonPath`
model `canonicalize()` (the stored string is the canonical path after the
Windows verbatim marker has been stripped); `rawPath` is the non-canonical
`file_path.to_string_lossy()` string; `createdOk`/`created` model
`metadata.created()`. -/
structure NodeMeta where
  entOk : Bool
  metaOk : Bool
  readonly : Bool
  canonOk : Bool
  canonPath : String
  rawPath : String
  createdOk : Bool
  created : Nat
deriving Repr, DecidableEq

/-- A filesystem tree.  A `dir` node records whether `fs::read_dir` on it
succeeds (`readOk`) together with its children; a `file` node records its
byte length (`metadata.len()`). -/
inductive FsTree where
  | file (name : String) (meta : NodeMeta) (size : Nat)
  | dir (name : String) (meta : NodeMeta) (readOk : Bool) (children : List FsTree)

/-- Base name of a node (`entry.file_name().to_string_lossy()`). -/
def FsTree.name : FsTree → String
  | .file n _ _ => n
  | .dir n _ _ _ => n

/-- Metadata-operation outcomes of a node. -/
def FsTree.meta : FsTree → NodeMeta
  | .file _ m _ => m
  | .dir _ m _ _ => m

/-- `metadata.is_dir()` for a node. -/
def FsTree.isDir : FsTree → Bool
  | .file _ _ _ => false
  | .dir _ _ _ _ => true

/-- Whether `fs::read_dir` on this node succeeds: false on a file (reading
a file as a directory fails), otherwise the node's `readOk` flag. -/
def rootReadableB : FsTree → Bool
  | .file _ _ _ => false
  | .dir _ _ rOk _ => rOk

/-- Immediate children of a node (a file has none). -/
def FsTree.childList : FsTree → List FsTree
  | .file _ _ _ => []
  | .dir _ _ _ cs => cs

/-- The scan configuration (struct `Cli` in models.rs). -/
structure Cli where
  file : Option String
  long_format : Bool
  human_readable : Bool
  all : Bool
  show_time : Bool
  parallel : Bool
  sort : Bool
  name : Option String
  full_path : Bool
deriving Repr, DecidableEq

/-- A produced entry as constructed in dir_listing.rs (struct `FileEntry`
without the creation-time field, which that module never sets). -/
structure FileEntry where
  file_type : Char
  permissions : String
  size_raw : Nat
  size_display : String
  path : String
  name : String
deriving Repr, DecidableEq

/-- A produced entry as constructed in dir_listing_v2.rs: the same fields
plus `created_time` (a `SystemTime`, modelled as Nat). -/
structure FileEntryV2 where
  file_type : Char
  permissions : String
  size_raw : Nat
  size_display : String
  path : String
  name : String
  created_time : Nat
deriving Repr, DecidableEq

/-- Lexicographic comparison of character lists, modelling Rust's `Ord`
for `String` (byte-wise comparison of UTF-8 strings coincides with
code-point-wise lexicographic order). -/
def lexLe : List Char → List Char → Bool
  | [], _ => true
  | _ :: _, [] => false
  | x :: xs, y :: ys => if x = y then lexLe xs ys else decide (x < y)

/-- The order used by `files.sort()` on base names. -/
def strLe (a b : String) : Prop := lexLe a.toList b.toList = true

instance : DecidableRel strLe := fun a b =>
  inferInstanceAs (Decidable (lexLe a.toList b.toList = true))

/-- Substring containment, modelling Rust's `str::contains(&str)`:
the pattern occurs contiguously somewhere in the string. -/
def strContainsSub (s pat : String) : Bool :=
  s.toList.tails.any (fun t => pat.toList.isPrefixOf t)

/-- The permission summary built by `format!("{}-{}-{}", r_or_space, "w",
"x")`: the first character is `r` or a space depending on the read-only
bit, the rest is the fixed text `-w-x`. -/
def permString (ro : Bool) : String :=
  (if ro then "r" else " ") ++ "-" ++ "w" ++ "-" ++ "x"

/-- Modelled from the spec: the SizeFormatter utility
(`human_readable_size` in the repository's `utils` module, whose source
file is not under `src/`).  Per §4.4 and §8 of the spec it returns a
unit-scaled string (`format(0, true) = "0 B"`, 1536 renders in KB scale);
the exact ladder and rounding are left to the implementation, so a simple
1024-based integer ladder is used here.  No claim depends on the exact
string. -/
def human_readable_size (n : Nat) : String :=
  if n < 1024 then toString n ++ " B"
  else if n < 1024 * 1024 then toString (n / 1024) ++ " KB"
  else if n < 1024 * 1024 * 1024 then toString (n / (1024 * 1024)) ++ " MB"
  else toString (n / (1024 * 1024 * 1024)) ++ " GB"

/-- The size display string: `human_readable_size(total)` when the
human-readable flag is set, otherwise `total.to_string()`. -/
def display (hr : Bool) (n : Nat) : String :=
  if hr then human_readable_size n else toString n

/-- Sequential summation (`entries.iter().map(...).sum::<u64>()`),
a left fold as the iterator performs it. -/
def seqSum (l : List Nat) : Nat := l.foldl (· + ·) 0

/-- Parallel summation (`entries.par_iter().map(...).sum::<u64>()`):
rayon splits the index range in half, reduces each half on a worker and
adds the partial results. -/
def parSum : List Nat → Nat
  | [] => 0
  | [x] => x
  | x :: y :: l =>
    parSum ((x :: y :: l).take ((l.length + 2) / 2)) +
      parSum ((x :: y :: l).drop ((l.length + 2) / 2))
termination_by l => l.length
decreasing_by
  · simp [List.length_take]; omega
  · simp [List.length_drop]; omega

/-- The summation actually performed, selected by the `parallel` flag. -/
def condSum (par : Bool) (l : List Nat) : Nat :=
  if par then parSum l else seqSum l

/-- The list of per-child contributions computed inside `inner_calculate`
(shared by `calculate_dir_size` in dir_listing.rs and by
`calculate_dir_size_with_events_simple` in dir_listing_v2.rs, which
differ only in progress-event emission): entries whose enumeration
failed are dropped by `filter_map`; `process_entry` then yields 0 when
`metadata()` fails, the recursive total for a directory (0 when its own
`read_dir` fails) and the length for a file. -/
def entrySizes (par : Bool) : List FsTree → List Nat
  | [] => []
  | FsTree.file _ m sz :: cs =>
      (if m.entOk then [if m.metaOk then sz else 0] else []) ++ entrySizes par cs
  | FsTree.dir _ m rOk ccs :: cs =>
      (if m.entOk then
        [if m.metaOk then (if rOk then condSum par (entrySizes par ccs) else 0) else 0]
       else []) ++ entrySizes par cs

/-- `inner_calculate`: 0 when `read_dir` fails (file given as a directory
path, or an unreadable directory), otherwise the parallel or sequential
sum of the per-child contributions. -/
def inner_calculate (par : Bool) : FsTree → Nat
  | FsTree.file _ _ _ => 0
  | FsTree.dir _ _ rOk cs => if rOk then condSum par (entrySizes par cs) else 0

/-- `calculate_dir_size` (dir_listing.rs): the raw total and its display
string. -/
def calculate_dir_size (t : FsTree) (hr par : Bool) : Nat × String :=
  let total := inner_calculate par t
  (total, display hr total)

/-- `calculate_dir_size_with_events_simple` (dir_listing_v2.rs): the same
computation as `calculate_dir_size` up to progress-event emission. -/
def calculate_dir_size_with_events_simple (t : FsTree) (hr par : Bool) : Nat × String :=
  let total := inner_calculate par t
  (total, display hr total)

/-- Modelled from the spec (§4.2): the per-child contributions of the
size aggregator — a child whose enumeration or stat failed contributes
exactly 0, a readable file contributes its length, a subdirectory
contributes its recursive total, which is 0 when it cannot be read. -/
def specContribs : List FsTree → List Nat
  | [] => []
  | FsTree.file _ m sz :: cs =>
      (if m.entOk ∧ m.metaOk then sz else 0) :: specContribs cs
  | FsTree.dir _ m rOk ccs :: cs =>
      (if m.entOk ∧ m.metaOk ∧ rOk then (specContribs ccs).sum else 0) :: specContribs cs

/-- Modelled from the spec (§4.2): the aggregated size of a tree — the
plain sum of the per-child contributions for a readable directory, 0
otherwise. -/
def specAggregate : FsTree → Nat
  | FsTree.file _ _ _ => 0
  | FsTree.dir _ _ rOk cs => if rOk then (specContribs cs).sum else 0

/-- The entry pushed for a matched directory inside `calculate_dir_size1`
(dir_listing.rs, lines 238–264): type is `d` (the branch is only reached
for directories), the permission summary comes from the read-only bit, the
size is the recursive aggregate, and on canonicalization failure the path
falls back to the EMPTY string (`"".to_string()`). -/
def mkWalkEntry (par hr : Bool) (nm : String) (m : NodeMeta) (rOk : Bool)
    (ccs : List FsTree) : FileEntry :=
  let raw := inner_calculate par (FsTree.dir nm m rOk ccs)
  { file_type := 'd'
    permissions := permString m.readonly
    size_raw := raw
    size_display := display hr raw
    path := if m.canonOk then m.canonPath else ""
    name := nm }

/-- The loop body of `calculate_dir_size1` over the children of one
directory: enumeration failures and stat failures skip the child; a file
child is skipped (`else continue`); a directory child whose name does not
contain the filter is recursed into (via `calculate_dir_size1`, whose
`read_dir` yields nothing when the child is unreadable); a directory child
whose name contains the filter is emitted with its aggregated size and not
descended into. -/
def walkList (par hr : Bool) (filt : String) : List FsTree → List FileEntry
  | [] => []
  | FsTree.file _ _ _ :: cs => walkList par hr filt cs
  | FsTree.dir nm m rOk ccs :: cs =>
      (if m.entOk ∧ m.metaOk then
        (if strContainsSub nm filt then [mkWalkEntry par hr nm m rOk ccs]
         else if rOk then walkList par hr filt ccs else [])
       else []) ++ walkList par hr filt cs

/-- `calculate_dir_size1` (dir_listing.rs): opens the given directory and
runs the filter walk over its children; if `read_dir` fails it returns
without appending anything. -/
def calculate_dir_size1 (par hr : Bool) (filt : String) : FsTree → List FileEntry
  | FsTree.file _ _ _ => []
  | FsTree.dir _ _ rOk cs => if rOk then walkList par hr filt cs else []

/-- The entry pushed for a matched directory inside
`calculate_dir_size_with_events` (dir_listing_v2.rs, lines 235–262): as in
v1, plus `created_time`, which falls back to the current time
(`unwrap_or(SystemTime::now())`) when the creation-time read fails. -/
def mkWalkEntryV2 (par hr : Bool) (now : Nat) (nm : String) (m : NodeMeta)
    (rOk : Bool) (ccs : List FsTree) : FileEntryV2 :=
  let raw := inner_calculate par (FsTree.dir nm m rOk ccs)
  { file_type := 'd'
    permissions := permString m.readonly
    size_raw := raw
    size_display := display hr raw
    path := if m.canonOk then m.canonPath else ""
    name := nm
    created_time := if m.createdOk then m.created else now }

/-- The loop body of `calculate_dir_size_with_events` over the children of
one directory; identical control flow to `walkList` up to progress-event
emission, producing v2 entries. -/
def walkListV2 (par hr : Bool) (filt : String) (now : Nat) :
    List FsTree → List FileEntryV2
  | [] => []
  | FsTree.file _ _ _ :: cs => walkListV2 par hr filt now cs
  | FsTree.dir nm m rOk ccs :: cs =>
      (if m.entOk ∧ m.metaOk then
        (if strContainsSub nm filt then [mkWalkEntryV2 par hr now nm m rOk ccs]
         else if rOk then walkListV2 par hr filt now ccs else [])
       else []) ++ walkListV2 par hr filt now cs

/-- `calculate_dir_size_with_events` (dir_listing_v2.rs). -/
def calculate_dir_size_with_events (par hr : Bool) (filt : String) (now : Nat) :
    FsTree → List FileEntryV2
  | FsTree.file _ _ _ => []
  | FsTree.dir _ _ rOk cs => if rOk then walkListV2 par hr filt now cs else []

/-- Modelled from the spec (§4.3): the (name, aggregated size) pairs the
filter walk should report — one pair per directory whose base name
contains the filter and that has no matching ancestor strictly below the
walk root; matched directories are not descended into, non-matching
readable directories are searched recursively, unreadable or
failed-to-stat subtrees are skipped, files are never reported. -/
def specMatches (filt : String) : List FsTree → List (String × Nat)
  | [] => []
  | FsTree.file _ _ _ :: cs => specMatches filt cs
  | FsTree.dir nm m rOk ccs :: cs =>
      (if m.entOk ∧ m.metaOk then
        (if strContainsSub nm filt then
          [(nm, specAggregate (FsTree.dir nm m rOk ccs))]
         else if rOk then specMatches filt ccs else [])
       else []) ++ specMatches filt cs

/-- Looking up a base name among the children, modelling the filesystem
resolving `path.join(file)` for the later `metadata()` calls. -/
def findChild (cs : List FsTree) (nm : String) : Option FsTree :=
  cs.find? (fun c => c.name == nm)

/-- The entry pushed in the main body of `list_directory`'s loop
(dir_listing.rs, lines 154–180): size via `calculate_dir_size` for a
directory, `metadata.len()` for a file; on canonicalization failure the
path falls back to the non-canonical path string. -/
def mkListEntry (par hr : Bool) (c : FsTree) : FileEntry :=
  let raw := match c with
    | FsTree.dir _ _ _ _ => inner_calculate par c
    | FsTree.file _ _ sz => sz
  { file_type := if c.isDir then 'd' else '-'
    permissions := permString c.meta.readonly
    size_raw := raw
    size_display := display hr raw
    path := if c.meta.canonOk then c.meta.canonPath else c.meta.rawPath
    name := c.name }

/-- One iteration of `list_directory`'s processing loop for the base name
`nm`: a stat failure skips the child (`continue`, at either of the two
`file_path.metadata()` call sites); with a name filter set, a directory
child that does not contain the filter is handed to `calculate_dir_size1`
and a non-directory child is skipped; otherwise the entry is built. -/
def processName (par hr : Bool) (nameFilter : Option String) (cs : List FsTree)
    (nm : String) : List FileEntry :=
  match findChild cs nm with
  | none => []
  | some c =>
    if c.meta.metaOk then
      match nameFilter with
      | some filt =>
        if c.isDir then
          if strContainsSub c.name filt then [mkListEntry par hr c]
          else calculate_dir_size1 par hr filt c
        else []
      | none => [mkListEntry par hr c]
    else []

/-- The relation of `entries.sort_by(|a, b| a.size_raw.cmp(&b.size_raw))`
in dir_listing.rs: ascending by raw size. -/
def sizeLe (a b : FileEntry) : Prop := a.size_raw ≤ b.size_raw

instance : DecidableRel sizeLe := fun a b =>
  inferInstanceAs (Decidable (a.size_raw ≤ b.size_raw))

instance : IsTotal FileEntry sizeLe := ⟨fun a b => Nat.le_total a.size_raw b.size_raw⟩

instance : IsTrans FileEntry sizeLe := ⟨fun _ _ _ => Nat.le_trans⟩

/-- The relation of `entries.sort_by(|a, b| b.size_raw.cmp(&a.size_raw))`
in dir_listing_v2.rs: descending by raw size. -/
def sizeGeV2 (a b : FileEntryV2) : Prop := b.size_raw ≤ a.size_raw

instance : DecidableRel sizeGeV2 := fun a b =>
  inferInstanceAs (Decidable (b.size_raw ≤ a.size_raw))

instance : IsTotal FileEntryV2 sizeGeV2 := ⟨fun a b => Nat.le_total b.size_raw a.size_raw⟩

instance : IsTrans FileEntryV2 sizeGeV2 := ⟨fun _ _ _ h h' => Nat.le_trans h' h⟩

/-- `list_directory` (dir_listing.rs): fails exactly when `read_dir` on
the root fails; collects the base names of the children whose enumeration
succeeded, sorts them lexicographically, and (in long format) processes
them in that order, finally sorting the result ascending by raw size when
the sort flag is set.  Rust's `Vec::sort`/`sort_by` (a stable sort) is
modelled by `List.insertionSort`, which is also stable. -/
def list_directory (root : FsTree) (args : Cli) : Except String (List FileEntry) :=
  match root with
  | FsTree.file _ _ _ => Except.error "cannot access"
  | FsTree.dir _ _ rOk cs =>
    if rOk then
      let files := (cs.filter (fun c => c.meta.entOk)).map FsTree.name
      let sortedNames := List.insertionSort strLe files
      if args.long_format then
        let entries :=
          (sortedNames.map (processName args.parallel args.human_readable args.name cs)).flatten
        Except.ok (if args.sort then List.insertionSort sizeLe entries else entries)
      else Except.ok []
    else Except.error "cannot access"

/-- The entry pushed in the main body of `list_directory_with_events`'s
loop (dir_listing_v2.rs, lines 127–151).  `created_time:
metadata.created()?` propagates a creation-time read failure as the
function's error result, so building the entry is fallible. -/
def mkListEntryV2 (par hr : Bool) (c : FsTree) : Except String FileEntryV2 :=
  if c.meta.createdOk then
    let raw := match c with
      | FsTree.dir _ _ _ _ => inner_calculate par c
      | FsTree.file _ _ sz => sz
    Except.ok
      { file_type := if c.isDir then 'd' else '-'
        permissions := permString c.meta.readonly
        size_raw := raw
        size_display := display hr raw
        path := if c.meta.canonOk then c.meta.canonPath else c.meta.rawPath
        name := c.name
        created_time := c.meta.created }
  else Except.error "created failed"

/-- One iteration of `list_directory_with_events`'s processing loop; the
same control flow as `processName`, except that the walker is the v2 one
and building the main entry can fail (propagated by `?`). -/
def processNameV2 (par hr : Bool) (nameFilter : Option String) (now : Nat)
    (cs : List FsTree) (nm : String) : Except String (List FileEntryV2) :=
  match findChild cs nm with
  | none => Except.ok []
  | some c =>
    if c.meta.metaOk then
      match nameFilter with
      | some filt =>
        if c.isDir then
          if strContainsSub c.name filt then
            (mkListEntryV2 par hr c).map (fun e => [e])
          else Except.ok (calculate_dir_size_with_events par hr filt now c)
        else Except.ok []
      | none => (mkListEntryV2 par hr c).map (fun e => [e])
    else Except.ok []

/-- The processing loop of `list_directory_with_events` over a list of
base names: the first failing entry build aborts the whole call with its
error (the `?` operator); otherwise the produced entries are concatenated
in processing order. -/
def collectV2 (par hr : Bool) (nameFilter : Option String) (now : Nat)
    (cs : List FsTree) : List String → Except String (List FileEntryV2)
  | [] => Except.ok []
  | nm :: nms =>
    match processNameV2 par hr nameFilter now cs nm with
    | Except.error e => Except.error e
    | Except.ok es =>
      match collectV2 par hr nameFilter now cs nms with
      | Except.error e => Except.error e
      | Except.ok rest => Except.ok (es ++ rest)

/-- `list_directory_with_events` (dir_listing_v2.rs): fails when
`read_dir` on the root fails; collects the base names, clones them into
`sorted_files` BEFORE `files.sort()` runs, and iterates `sorted_files` —
so the children are processed in the original enumeration order, not the
sorted one.  When the sort flag is set the result is sorted descending by
raw size.  A child whose `metadata.created()` fails aborts the call with
that error. -/
def list_directory_with_events (root : FsTree) (args : Cli) (now : Nat) :
    Except String (List FileEntryV2) :=
  match root with
  | FsTree.file _ _ _ => Except.error "cannot access"
  | FsTree.dir _ _ rOk cs =>
    if rOk then
      let files := (cs.filter (fun c => c.meta.entOk)).map FsTree.name
      if args.long_format then
        match collectV2 args.parallel args.human_readable args.name now cs files with
        | Except.error e => Except.error e
        | Except.ok entries =>
          Except.ok (if args.sort then List.insertionSort sizeGeV2 entries else entries)
      else Except.ok []
    else Except.error "cannot access"

/-- Entries of a v1 lister result, the empty list on error. -/
def entriesOfV1 (r : Except String (List FileEntry)) : List FileEntry :=
  match r with
  | Except.ok l => l
  | Except.error _ => []

/-- Entries of a v2 lister result, the empty list on error. -/
def entriesOfV2 (r : Except String (List FileEntryV2)) : List FileEntryV2 :=
  match r with
  | Except.ok l => l
  | Except.error _ => []

/-- A node on which every metadata operation succeeds. -/
def mGood : NodeMeta := ⟨true, true, false, true, "/c", "/r", true, 5⟩

/-- A fully readable node whose read-only bit is set. -/
def mReadonly : NodeMeta := ⟨true, true, true, true, "/c", "/r", true, 5⟩

/-- A readable node whose canonicalization fails; its non-canonical path
string is "/r/sub/foo1". -/
def mNoCanon : NodeMeta := ⟨true, true, false, false, "/c", "/r/sub/foo1", true, 5⟩

/-- A readable node whose creation-time read fails. -/
def mNoCreated : NodeMeta := ⟨true, true, false, true, "/c", "/r", false, 0⟩

/-- Long-format configuration: no filter, no sorting, sequential, raw
sizes (the shape `get_list_directory` builds, minus sorting). -/
def argsPlain : Cli := ⟨none, true, false, true, true, false, false, none, true⟩

/-- As `argsPlain` with the size sort enabled. -/
def argsSort : Cli := ⟨none, true, false, true, true, false, true, none, true⟩

/-- As `argsPlain` with the name filter "foo". -/
def argsFilterFoo : Cli := ⟨none, true, false, true, true, false, false, some "foo", true⟩

/-- A readable root whose enumeration yields "b" before "a". -/
def rootTwoFiles : FsTree :=
  FsTree.dir "root" mGood true [FsTree.file "b" mGood 1, FsTree.file "a" mGood 2]

/-- A readable root with three files of sizes 10, 1000 and 100, in that
enumeration order. -/
def rootThreeSizes : FsTree :=
  FsTree.dir "root" mGood true
    [FsTree.file "x" mGood 10, FsTree.file "y" mGood 1000, FsTree.file "z" mGood 100]

/-- A readable root with one child whose creation-time read fails. -/
def rootBadCreated : FsTree :=
  FsTree.dir "root" mGood true [FsTree.file "a" mNoCreated 3]

/-- A readable root with one read-only child and one writable child. -/
def rootPerm : FsTree :=
  FsTree.dir "root" mGood true [FsTree.file "a" mReadonly 1, FsTree.file "b" mGood 2]

/-- A directory that cannot be opened. -/
def rootLocked : FsTree := FsTree.dir "locked" mGood false []

/-- A readable root containing a non-matching directory "sub" which
contains the matching directory "foo1" (whose canonicalization fails)
holding a 7-byte file. -/
def rootFooDeep : FsTree :=
  FsTree.dir "root" mGood true
    [FsTree.dir "sub" mGood true
      [FsTree.dir "foo1" mNoCanon true [FsTree.file "x" mGood 7]]]

/- ------------------------------------------------------------------ -/
/- Helper lemmas                                                      -/
/- ------------------------------------------------------------------ -/

theorem seqSum_eq_sum (l : List Nat) : seqSum l = l.sum := by
  simp [seqSum, List.sum_eq_foldl]

theorem parSum_eq_sum : ∀ l : List Nat, parSum l = l.sum
  | [] => by simp [parSum]
  | [x] => by simp [parSum]
  | x :: y :: l => by
    rw [parSum]
    rw [parSum_eq_sum ((x :: y :: l).take ((l.length + 2) / 2)),
      parSum_eq_sum ((x :: y :: l).drop ((l.length + 2) / 2))]
    exact List.sum_take_add_sum_drop _ _
termination_by l => l.length
decreasing_by
  · simp [List.length_take]; omega
  · simp [List.length_drop]; omega

theorem condSum_eq_sum (par : Bool) (l : List Nat) : condSum par l = l.sum := by
  cases par <;> simp [condSum, seqSum_eq_sum, parSum_eq_sum]

theorem entrySizes_sum (par : Bool) :
    ∀ cs : List FsTree, (entrySizes par cs).sum = (specContribs cs).sum
  | [] => by simp [entrySizes, specContribs]
  | FsTree.file _ m sz :: cs => by
    cases hE : m.entOk <;> cases hM : m.metaOk <;>
      simp [entrySizes, specContribs, hE, hM, entrySizes_sum par cs]
  | FsTree.dir _ m rOk ccs :: cs => by
    cases hE : m.entOk <;> cases hM : m.metaOk <;> cases hR : rOk <;>
      simp [entrySizes, specContribs, hE, hM, hR, entrySizes_sum par cs,
        entrySizes_sum par ccs, condSum_eq_sum]

theorem inner_calculate_eq_spec (par : Bool) (t : FsTree) :
    inner_calculate par t = specAggregate t := by
  cases t with
  | file n m sz => rfl
  | dir n m rOk cs =>
    cases rOk <;> simp [inner_calculate, specAggregate, condSum_eq_sum, entrySizes_sum]

theorem walk_spec (par hr : Bool) (filt : String) :
    ∀ cs : List FsTree,
      (walkList par hr filt cs).map (fun e => (e.name, e.size_raw)) = specMatches filt cs
  | [] => by simp [walkList, specMatches]
  | FsTree.file n m sz :: cs => by
    simp [walkList, specMatches, walk_spec par hr filt cs]
  | FsTree.dir nm m rOk ccs :: cs => by
    by_cases hEM : (m.entOk ∧ m.metaOk)
    · by_cases hC : strContainsSub nm filt = true
      · simp [walkList, specMatches, hEM, hC, mkWalkEntry,
          inner_calculate_eq_spec, walk_spec par hr filt cs]
      · cases hR : rOk <;>
          simp [walkList, specMatches, hEM, hC, hR,
            walk_spec par hr filt cs, walk_spec par hr filt ccs]
    · simp [walkList, specMatches, hEM, walk_spec par hr filt cs]

theorem walk_specV2 (par hr : Bool) (filt : String) (now : Nat) :
    ∀ cs : List FsTree,
      (walkListV2 par hr filt now cs).map (fun e => (e.name, e.size_raw)) = specMatches filt cs
  | [] => by simp [walkListV2, specMatches]
  | FsTree.file n m sz :: cs => by
    simp [walkListV2, specMatches, walk_specV2 par hr filt now cs]
  | FsTree.dir nm m rOk ccs :: cs => by
    by_cases hEM : (m.entOk ∧ m.metaOk)
    · by_cases hC : strContainsSub nm filt = true
      · simp [walkListV2, specMatches, hEM, hC, mkWalkEntryV2,
          inner_calculate_eq_spec, walk_specV2 par hr filt now cs]
      · cases hR : rOk <;>
          simp [walkListV2, specMatches, hEM, hC, hR,
            walk_specV2 par hr filt now cs, walk_specV2 par hr filt now ccs]
    · simp [walkListV2, specMatches, hEM, walk_specV2 par hr filt now cs]

theorem walk_all (par hr : Bool) (filt : String) (p : FileEntry → Bool)
    (hp : ∀ nm m rOk ccs, p (mkWalkEntry par hr nm m rOk ccs) = true) :
    ∀ cs : List FsTree, (walkList par hr filt cs).all p = true
  | [] => by simp [walkList]
  | FsTree.file n m sz :: cs => by
    simp only [walkList]; exact walk_all par hr filt p hp cs
  | FsTree.dir nm m rOk ccs :: cs => by
    by_cases hEM : (m.entOk ∧ m.metaOk)
    · by_cases hC : strContainsSub nm filt = true
      · simp [walkList, hEM, hC, List.all_append, hp, walk_all par hr filt p hp cs]
      · cases hR : rOk <;>
          simp [walkList, hEM, hC, hR, List.all_append,
            walk_all par hr filt p hp cs, walk_all par hr filt p hp ccs]
    · simp [walkList, hEM, walk_all par hr filt p hp cs]

theorem walk_allV2 (par hr : Bool) (filt : String) (now : Nat) (p : FileEntryV2 → Bool)
    (hp : ∀ nm m rOk ccs, p (mkWalkEntryV2 par hr now nm m rOk ccs) = true) :
    ∀ cs : List FsTree, (walkListV2 par hr filt now cs).all p = true
  | [] => by simp [walkListV2]
  | FsTree.file n m sz :: cs => by
    simp only [walkListV2]; exact walk_allV2 par hr filt now p hp cs
  | FsTree.dir nm m rOk ccs :: cs => by
    by_cases hEM : (m.entOk ∧ m.metaOk)
    · by_cases hC : strContainsSub nm filt = true
      · simp [walkListV2, hEM, hC, List.all_append, hp, walk_allV2 par hr filt now p hp cs]
      · cases hR : rOk <;>
          simp [walkListV2, hEM, hC, hR, List.all_append,
            walk_allV2 par hr filt now p hp cs, walk_allV2 par hr filt now p hp ccs]
    · simp [walkListV2, hEM, walk_allV2 par hr filt now p hp cs]

theorem perm_all_eq {α : Type} {l l' : List α} (h : l.Perm l') (p : α → Bool) :
    l.all p = l'.all p := by
  induction h with
  | nil => rfl
  | cons x _ ih => simp [List.all_cons, ih]
  | swap x y l => simp [List.all_cons, Bool.and_left_comm]
  | trans _ _ ih1 ih2 => exact ih1.trans ih2

theorem insertionSort_all {α : Type} (r : α → α → Prop) [DecidableRel r]
    (p : α → Bool) (l : List α) : (List.insertionSort r l).all p = l.all p :=
  perm_all_eq (List.perm_insertionSort r l) p

theorem permString_eq (ro : Bool) :
    permString ro = if ro then "r-w-x" else " -w-x" := by
  cases ro <;> rfl

theorem listDirectory_isOk (root : FsTree) (args : Cli) :
    (list_directory root args).isOk = rootReadableB root := by
  cases root with
  | file n m sz => rfl
  | dir n m rOk cs =>
    cases rOk <;> cases hlf : args.long_format <;>
      simp [list_directory, rootReadableB, hlf, Except.isOk, Except.toBool]

theorem listDirectoryV2_error_of_unreadable (root : FsTree) (args : Cli) (now : Nat)
    (h : rootReadableB root = false) :
    (list_directory_with_events root args now).isOk = false := by
  cases root with
  | file n m sz => rfl
  | dir n m rOk cs =>
    cases rOk with
    | false => simp [list_directory_with_events, Except.isOk, Except.toBool]
    | true => simp [rootReadableB] at h

theorem processNameV2_isOk (par hr : Bool) (nameFilter : Option String) (now : Nat)
    (cs : List FsTree) (nm : String)
    (h : ∀ c ∈ cs, c.meta.createdOk = true) :
    (processNameV2 par hr nameFilter now cs nm).isOk = true := by
  rw [processNameV2]
  cases hf : findChild cs nm with
  | none => rfl
  | some c =>
    have hcMem : c ∈ cs := List.mem_of_find?_eq_some hf
    have hcr : c.meta.createdOk = true := h c hcMem
    cases hM : c.meta.metaOk with
    | false => simp [hM, Except.isOk, Except.toBool]
    | true =>
      cases nameFilter with
      | none => simp [hM, mkListEntryV2, hcr, Except.isOk, Except.toBool, Except.map]
      | some filt =>
        cases hD : c.isDir <;> cases hC : strContainsSub c.name filt <;>
          simp [hM, hD, hC, mkListEntryV2, hcr, Except.isOk, Except.toBool, Except.map]

theorem collectV2_isOk (par hr : Bool) (nameFilter : Option String) (now : Nat)
    (cs : List FsTree) (h : ∀ c ∈ cs, c.meta.createdOk = true) :
    ∀ nms : List String, (collectV2 par hr nameFilter now cs nms).isOk = true
  | [] => rfl
  | nm :: nms => by
    rw [collectV2]
    have h1 := processNameV2_isOk par hr nameFilter now cs nm h
    have h2 := collectV2_isOk par hr nameFilter now cs h nms
    cases hp : processNameV2 par hr nameFilter now cs nm with
    | error e => rw [hp] at h1; simp [Except.isOk, Except.toBool] at h1
    | ok es =>
      cases hc : collectV2 par hr nameFilter now cs nms with
      | error e => rw [hc] at h2; simp [Except.isOk, Except.toBool] at h2
      | ok rest => simp [Except.isOk, Except.toBool]

theorem listDirectoryV2_isOk_of_created (root : FsTree) (args : Cli) (now : Nat)
    (hroot : rootReadableB root = true)
    (h : ∀ c ∈ root.childList, c.meta.createdOk = true) :
    (list_directory_with_events root args now).isOk = true := by
  cases root with
  | file n m sz => simp [rootReadableB] at hroot
  | dir n m rOk cs =>
    cases rOk with
    | false => simp [rootReadableB] at hroot
    | true =>
      rw [list_directory_with_events]
      cases hlf : args.long_format with
      | false => simp [Except.isOk, Except.toBool]
      | true =>
        have hall := collectV2_isOk args.parallel args.human_readable args.name now cs
          (by simpa [FsTree.childList] using h)
          ((cs.filter (fun c => c.meta.entOk)).map FsTree.name)
        cases hc : collectV2 args.parallel args.human_readable args.name now cs
            ((cs.filter (fun c => c.meta.entOk)).map FsTree.name) with
        | error e => rw [hc] at hall; simp [Except.isOk, Except.toBool] at hall
        | ok entries => simp [hc, Except.isOk, Except.toBool]

theorem processName_all (par hr : Bool) (nameFilter : Option String)
    (cs : List FsTree) (nm : String) (p : FileEntry → Bool)
    (hpL : ∀ c, p (mkListEntry par hr c) = true)
    (hpW : ∀ nm' m rOk ccs, p (mkWalkEntry par hr nm' m rOk ccs) = true) :
    (processName par hr nameFilter cs nm).all p = true := by
  rw [processName]
  cases hf : findChild cs nm with
  | none => rfl
  | some c =>
    cases hM : c.meta.metaOk with
    | false => simp [hM]
    | true =>
      cases nameFilter with
      | none => simp [hM, hpL]
      | some filt =>
        cases hD : c.isDir with
        | false => simp [hM, hD]
        | true =>
          cases hC : strContainsSub c.name filt with
          | true => simp [hM, hD, hC, hpL]
          | false =>
            cases c with
            | file n' m' sz' => simp [FsTree.isDir] at hD
            | dir n' m' rOk' ccs' =>
              cases rOk' <;>
                simp [hM, hD, hC, calculate_dir_size1, walk_all par hr filt p hpW]

theorem listV1_all (root : FsTree) (args : Cli) (p : FileEntry → Bool)
    (hpL : ∀ c, p (mkListEntry args.parallel args.human_readable c) = true)
    (hpW : ∀ nm m rOk ccs,
      p (mkWalkEntry args.parallel args.human_readable nm m rOk ccs) = true) :
    (entriesOfV1 (list_directory root args)).all p = true := by
  cases root with
  | file n m sz => rfl
  | dir n m rOk cs =>
    cases rOk with
    | false => rfl
    | true =>
      rw [list_directory]
      have hflat : ((List.insertionSort strLe
          ((cs.filter (fun c => c.meta.entOk)).map FsTree.name)).map
          (processName args.parallel args.human_readable args.name cs)).flatten.all p
            = true := by
        rw [List.all_flatten, List.all_eq_true]
        intro l hl
        rw [List.mem_map] at hl
        obtain ⟨nm, hnm, rfl⟩ := hl
        exact processName_all args.parallel args.human_readable args.name cs nm p hpL hpW
      cases hlf : args.long_format with
      | false => simp [hlf, entriesOfV1]
      | true =>
        cases hs : args.sort with
        | false => simpa [hlf, hs, entriesOfV1] using hflat
        | true =>
          simp only [hlf, hs, if_true, ite_true, entriesOfV1]
          rw [insertionSort_all]
          exact hflat

theorem processNameV2_all (par hr : Bool) (nameFilter : Option String) (now : Nat)
    (cs : List FsTree) (nm : String) (p : FileEntryV2 → Bool)
    (hpL : ∀ c e, mkListEntryV2 par hr c = Except.ok e → p e = true)
    (hpW : ∀ nm' m rOk ccs, p (mkWalkEntryV2 par hr now nm' m rOk ccs) = true) :
    ∀ es, processNameV2 par hr nameFilter now cs nm = Except.ok es → es.all p = true := by
  intro es hes
  have hMain : ∀ c es', Except.map (fun e => [e]) (mkListEntryV2 par hr c) = Except.ok es' →
      es'.all p = true := by
    intro c es' hes'
    cases hmk : mkListEntryV2 par hr c with
    | error e => rw [hmk] at hes'; simp [Except.map] at hes'
    | ok e =>
      rw [hmk] at hes'
      simp [Except.map] at hes'
      subst hes'
      simp [hpL c e hmk]
  have hWalk : ∀ c filt, (calculate_dir_size_with_events par hr filt now c).all p = true := by
    intro c filt
    cases c with
    | file n' m' sz' => rfl
    | dir n' m' rOk' ccs' =>
      cases rOk' <;>
        simp [calculate_dir_size_with_events, walk_allV2 par hr filt now p hpW]
  rw [processNameV2] at hes
  split at hes
  · cases hes; rfl
  · split at hes
    · split at hes
      · split at hes
        · split at hes
          · exact hMain _ es hes
          · cases hes; exact hWalk _ _
        · cases hes; rfl
      · exact hMain _ es hes
    · cases hes; rfl

theorem collectV2_all (par hr : Bool) (nameFilter : Option String) (now : Nat)
    (cs : List FsTree) (p : FileEntryV2 → Bool)
    (hpL : ∀ c e, mkListEntryV2 par hr c = Except.ok e → p e = true)
    (hpW : ∀ nm' m rOk ccs, p (mkWalkEntryV2 par hr now nm' m rOk ccs) = true) :
    ∀ nms es, collectV2 par hr nameFilter now cs nms = Except.ok es → es.all p = true
  | [], es => by intro hes; cases hes; rfl
  | nm :: nms, es => by
    intro hes
    rw [collectV2] at hes
    cases hp : processNameV2 par hr nameFilter now cs nm with
    | error e => rw [hp] at hes; cases hes
    | ok es1 =>
      rw [hp] at hes
      cases hc : collectV2 par hr nameFilter now cs nms with
      | error e => rw [hc] at hes; cases hes
      | ok rest =>
        rw [hc] at hes
        cases hes
        rw [List.all_append]
        rw [processNameV2_all par hr nameFilter now cs nm p hpL hpW es1 hp,
          collectV2_all par hr nameFilter now cs p hpL hpW nms rest hc]
        rfl

theorem listV2_all (root : FsTree) (args : Cli) (now : Nat) (p : FileEntryV2 → Bool)
    (hpL : ∀ c e, mkListEntryV2 args.parallel args.human_readable c = Except.ok e →
      p e = true)
    (hpW : ∀ nm m rOk ccs,
      p (mkWalkEntryV2 args.parallel args.human_readable now nm m rOk ccs) = true) :
    (entriesOfV2 (list_directory_with_events root args now)).all p = true := by
  cases root with
  | file n m sz => rfl
  | dir n m rOk cs =>
    cases rOk with
    | false => rfl
    | true =>
      rw [list_directory_with_events]
      cases hlf : args.long_format with
      | false => simp [hlf, entriesOfV2]
      | true =>
        simp only [hlf, if_true, ite_true]
        cases hc : collectV2 args.parallel args.human_readable args.name now cs
            ((cs.filter (fun c => c.meta.entOk)).map FsTree.name) with
        | error e => simp [entriesOfV2]
        | ok entries =>
          have hall := collectV2_all args.parallel args.human_readable args.name now cs p
            hpL hpW _ entries hc
          cases hs : args.sort with
          | false => simpa [hs, entriesOfV2] using hall
          | true =>
            simp only [hs, if_true, ite_true, entriesOfV2]
            rw [insertionSort_all]
            exact hall

/- ------------------------------------------------------------------ -/
/- Claim theorems                                                     -/
/- ------------------------------------------------------------------ -/

/-- Claim C2: the size aggregators (`calculate_dir_size` and
`calculate_dir_size_with_events_simple`) always return a total equal to
the spec-side partial sum — failed children contribute exactly 0, a
readable file contributes its length, a readable subdirectory its
recursive total — and an unreadable subdirectory child can be dropped
without changing its parent's total (it contributes 0 and does not affect
siblings or ancestors). -/
theorem C2_aggregator_spec (par hr : Bool) (t : FsTree) (n bn : String)
    (m bm : NodeMeta) (rOk : Bool) (cs bcs : List FsTree) :
    ((calculate_dir_size t hr par).1 = specAggregate t)
    ∧ ((calculate_dir_size_with_events_simple t hr par).1 = specAggregate t)
    ∧ ((calculate_dir_size (FsTree.dir n m rOk (FsTree.dir bn bm false bcs :: cs)) hr par).1
        = (calculate_dir_size (FsTree.dir n m rOk cs) hr par).1) := by
  refine ⟨inner_calculate_eq_spec par t, inner_calculate_eq_spec par t, ?_⟩
  show inner_calculate par (FsTree.dir n m rOk (FsTree.dir bn bm false bcs :: cs))
    = inner_calculate par (FsTree.dir n m rOk cs)
  rw [inner_calculate_eq_spec, inner_calculate_eq_spec]
  simp [specAggregate, specContribs]

/-- Claim C3: on any tree, the aggregator invoked with `parallel = true`
returns exactly the same total as with `parallel = false`, in both the
plain and the event-driven variant. -/
theorem C3_parallel_sequential_agree (hr : Bool) (t : FsTree) :
    ((calculate_dir_size t hr true).1 = (calculate_dir_size t hr false).1)
    ∧ ((calculate_dir_size_with_events_simple t hr true).1
        = (calculate_dir_size_with_events_simple t hr false).1) :=
  ⟨(inner_calculate_eq_spec true t).trans (inner_calculate_eq_spec false t).symm,
   (inner_calculate_eq_spec true t).trans (inner_calculate_eq_spec false t).symm⟩

/-- Claim C4: the name-filter walk (`calculate_dir_size1` and
`calculate_dir_size_with_events`) emits exactly the (name, aggregated
size) pairs described by `specMatches`: one entry per descendant
directory whose base name contains the filter and that has no matching
ancestor strictly below the walk root, each with its recursively
aggregated size; matched directories are not descended into and
non-matching directories produce no entry of their own (nothing when the
walk root is unreadable).  Every emitted entry is of directory kind, and
file children are ignored by the walk entirely. -/
theorem C4_filter_walker_spec (par hr : Bool) (filt : String) (now : Nat)
    (nm fn : String) (m fm : NodeMeta) (rOk : Bool) (cs : List FsTree) (fsz : Nat) :
    ((calculate_dir_size1 par hr filt (FsTree.dir nm m rOk cs)).map
        (fun e => (e.name, e.size_raw)) = if rOk then specMatches filt cs else [])
    ∧ ((calculate_dir_size_with_events par hr filt now (FsTree.dir nm m rOk cs)).map
        (fun e => (e.name, e.size_raw)) = if rOk then specMatches filt cs else [])
    ∧ ((walkList par hr filt cs).all (fun e => e.file_type == 'd') = true)
    ∧ ((walkListV2 par hr filt now cs).all (fun e => e.file_type == 'd') = true)
    ∧ (walkList par hr filt (FsTree.file fn fm fsz :: cs) = walkList par hr filt cs)
    ∧ (walkListV2 par hr filt now (FsTree.file fn fm fsz :: cs)
        = walkListV2 par hr filt now cs) := by
  refine ⟨?_, ?_, ?_, ?_, ?_, ?_⟩
  · cases rOk <;> simp [calculate_dir_size1, walk_spec]
  · cases rOk <;> simp [calculate_dir_size_with_events, walk_specV2]
  · exact walk_all par hr filt _ (fun nm' m' rOk' ccs' => by simp [mkWalkEntry]) cs
  · exact walk_allV2 par hr filt now _ (fun nm' m' rOk' ccs' => by simp [mkWalkEntryV2]) cs
  · simp [walkList]
  · simp [walkListV2]

/-- Claim C9: the `all`/show-hidden flag is carried in the configuration
but never consulted: two configurations differing only in that flag give
identical results for both listers, on every tree. -/
theorem C9_all_flag_independent (root : FsTree) (args : Cli) (b : Bool) (now : Nat) :
    (list_directory root { args with all := b } = list_directory root args)
    ∧ (list_directory_with_events root { args with all := b } now
        = list_directory_with_events root args now) := by
  cases args
  exact ⟨rfl, rfl⟩

/-- Claim C5 (failing input): on a root whose children enumerate as
"b" then "a", the plain lister processes (and, unsorted, returns) them in
ascending lexicographic order "a", "b", but the event-driven lister
iterates the clone taken *before* `files.sort()` runs and returns them in
the raw enumeration order "b", "a" — contradicting the claim that both
variants process children in ascending lexicographic order. -/
theorem C5_processing_order_bug :
    ((entriesOfV1 (list_directory rootTwoFiles argsPlain)).map (fun e => e.name)
      = ["a", "b"])
    ∧ ((entriesOfV2 (list_directory_with_events rootTwoFiles argsPlain 0)).map
        (fun e => e.name) = ["b", "a"]) :=
  ⟨rfl, rfl⟩

/-- Claim C1 (counterexample): the event-driven lister can fail although
the root directory itself is perfectly readable — a child whose
creation-time metadata read fails is propagated as an error by
`metadata.created()?`, so deeper failures are not all absorbed. -/
theorem C1_root_error_counterexample :
    rootReadableB rootBadCreated = true
    ∧ (list_directory_with_events rootBadCreated argsPlain 0).isOk = false :=
  ⟨rfl, rfl⟩

/-- Claim C1 (amended): the plain lister `list_directory` errors exactly
when the root cannot be opened; the event-driven lister
`list_directory_with_events` errors whenever the root cannot be opened,
and succeeds whenever the root is readable and every immediate child's
creation-time read succeeds (all other deeper failures are absorbed) —
but, unlike the plain variant, it also fails when a processed child's
creation-time read fails. -/
theorem C1_root_error_amended (root : FsTree) (args : Cli) (now : Nat) :
    ((list_directory root args).isOk = rootReadableB root)
    ∧ (rootReadableB root = false →
        (list_directory_with_events root args now).isOk = false)
    ∧ (rootReadableB root = true →
        (∀ c ∈ root.childList, c.meta.createdOk = true) →
        (list_directory_with_events root args now).isOk = true) :=
  ⟨listDirectory_isOk root args,
   fun h => listDirectoryV2_error_of_unreadable root args now h,
   fun h1 h2 => listDirectoryV2_isOk_of_created root args now h1 h2⟩

/-- Claim C1 (witness): the amended theorem applied to a readable
two-file root and to an unreadable root. -/
theorem C1_root_error_witness :
    ((list_directory rootTwoFiles argsPlain).isOk = rootReadableB rootTwoFiles)
    ∧ ((list_directory_with_events rootLocked argsPlain 0).isOk = false)
    ∧ ((list_directory_with_events rootTwoFiles argsPlain 0).isOk = true) :=
  ⟨(C1_root_error_amended rootTwoFiles argsPlain 0).1,
   (C1_root_error_amended rootLocked argsPlain 0).2.1 rfl,
   (C1_root_error_amended rootTwoFiles argsPlain 0).2.2 rfl (by decide)⟩

/-- Claim C6 (counterexample): on one root with three files of sizes 10,
1000 and 100 and the sort flag set, the plain lister returns sizes in
ascending order while the event-driven lister returns them in descending
order — the sort direction is not one single policy shared by every scan
variant. -/
theorem C6_sort_counterexample :
    ((entriesOfV1 (list_directory rootThreeSizes argsSort)).map (fun e => e.size_raw)
      = [10, 100, 1000])
    ∧ ((entriesOfV2 (list_directory_with_events rootThreeSizes argsSort 0)).map
        (fun e => e.size_raw) = [1000, 100, 10]) :=
  ⟨rfl, rfl⟩

/-- Claim C6 (amended): when the sort flag is set each variant's returned
sequence is monotonic in `size_raw`, but the directions differ: the plain
lister sorts ascending and the event-driven lister sorts descending. -/
theorem C6_sort_amended (root : FsTree) (args : Cli) (now : Nat)
    (h : args.sort = true) :
    List.Pairwise sizeLe (entriesOfV1 (list_directory root args))
    ∧ List.Pairwise sizeGeV2 (entriesOfV2 (list_directory_with_events root args now)) := by
  constructor
  · cases root with
    | file n m sz => exact List.Pairwise.nil
    | dir n m rOk cs =>
      cases rOk with
      | false => exact List.Pairwise.nil
      | true =>
        rw [list_directory]
        cases hlf : args.long_format with
        | false => simp [hlf, entriesOfV1]
        | true =>
          simp only [hlf, h, if_true, ite_true, entriesOfV1]
          exact List.sorted_insertionSort sizeLe _
  · cases root with
    | file n m sz => exact List.Pairwise.nil
    | dir n m rOk cs =>
      cases rOk with
      | false => exact List.Pairwise.nil
      | true =>
        rw [list_directory_with_events]
        cases hlf : args.long_format with
        | false => simp [hlf, entriesOfV2]
        | true =>
          simp only [hlf, if_true, ite_true]
          cases hc : collectV2 args.parallel args.human_readable args.name now cs
              ((cs.filter (fun c => c.meta.entOk)).map FsTree.name) with
          | error e => exact List.Pairwise.nil
          | ok entries =>
            simp only [h, if_true, ite_true, entriesOfV2]
            exact List.sorted_insertionSort sizeGeV2 _

/-- Claim C6 (witness): the amended theorem applied to the three-size
root with the sort flag set. -/
theorem C6_sort_witness :
    List.Pairwise sizeLe (entriesOfV1 (list_directory rootThreeSizes argsSort))
    ∧ List.Pairwise sizeGeV2
        (entriesOfV2 (list_directory_with_events rootThreeSizes argsSort 0)) :=
  C6_sort_amended rootThreeSizes argsSort 0 rfl

/-- Claim C7 (counterexample): when the name-filter walker's matched
directory fails to canonicalize, the Entry is produced but its path is
the EMPTY string, not the non-canonical path string "/r/sub/foo1". -/
theorem C7_canon_fallback_counterexample :
    ((entriesOfV1 (list_directory rootFooDeep argsFilterFoo)).map (fun e => e.path)
      = [""])
    ∧ mNoCanon.rawPath ≠ "" := by
  constructor
  · simp [rootFooDeep, list_directory, argsFilterFoo, processName, findChild,
      calculate_dir_size1, walkList, strContainsSub, mGood, mNoCanon, FsTree.name,
      FsTree.meta, FsTree.isDir, entriesOfV1, mkWalkEntry,
      List.insertionSort, List.orderedInsert]
  · decide

/-- Claim C7 (amended): an Entry is still produced when canonicalization
fails, but the fallback differs by code path: the top-level listers (the
plain `list_directory` and the event-driven `list_directory_with_events`)
fall back to the non-canonical path string, while the name-filter walker
(in both variants) falls back to the empty string.  The event-driven
conjunct assumes the child's creation-time read succeeds, since that
lister aborts otherwise (see C1/C10). -/
theorem C7_canon_fallback_amended (args : Cli) (rn cn : String) (rm cm : NodeMeta)
    (sz : Nat) (par hr : Bool) (filt : String) (now : Nat) (nm : String)
    (m : NodeMeta) (rOk : Bool) (ccs : List FsTree)
    (hlf : args.long_format = true) (hn : args.name = none) (hs : args.sort = false)
    (hent : cm.entOk = true) (hmeta : cm.metaOk = true)
    (hEM : m.entOk = true) (hM : m.metaOk = true)
    (hC : strContainsSub nm filt = true) :
    (list_directory (FsTree.dir rn rm true [FsTree.file cn cm sz]) args
      = Except.ok [FileEntry.mk '-' (permString cm.readonly) sz
          (display args.human_readable sz)
          (if cm.canonOk then cm.canonPath else cm.rawPath) cn])
    ∧ (cm.createdOk = true →
        list_directory_with_events (FsTree.dir rn rm true [FsTree.file cn cm sz]) args now
          = Except.ok [FileEntryV2.mk '-' (permString cm.readonly) sz
              (display args.human_readable sz)
              (if cm.canonOk then cm.canonPath else cm.rawPath) cn cm.created])
    ∧ ((walkList par hr filt [FsTree.dir nm m rOk ccs]).map (fun e => e.path)
        = [if m.canonOk then m.canonPath else ""])
    ∧ ((walkListV2 par hr filt now [FsTree.dir nm m rOk ccs]).map (fun e => e.path)
        = [if m.canonOk then m.canonPath else ""]) := by
  refine ⟨?_, ?_, ?_, ?_⟩
  · rw [list_directory]
    simp [hlf, hn, hs, hent, hmeta, processName, findChild, mkListEntry,
      FsTree.name, FsTree.meta, FsTree.isDir, List.insertionSort, List.orderedInsert]
  · intro hcr
    rw [list_directory_with_events]
    simp [hlf, hn, hs, hent, hmeta, hcr, collectV2, processNameV2, findChild,
      mkListEntryV2, FsTree.name, FsTree.meta, FsTree.isDir, Except.map]
  · simp [walkList, hEM, hM, hC, mkWalkEntry]
  · simp [walkListV2, hEM, hM, hC, mkWalkEntryV2]

/-- Claim C7 (witness): the amended theorem applied to a root with one
non-canonicalizable file child (for both listers) and a walker call on
one matching non-canonicalizable directory. -/
theorem C7_canon_fallback_witness :
    (list_directory (FsTree.dir "root" mGood true [FsTree.file "a" mNoCanon 3]) argsPlain
      = Except.ok [FileEntry.mk '-' (permString mNoCanon.readonly) 3
          (display argsPlain.human_readable 3)
          (if mNoCanon.canonOk then mNoCanon.canonPath else mNoCanon.rawPath) "a"])
    ∧ (list_directory_with_events (FsTree.dir "root" mGood true
          [FsTree.file "a" mNoCanon 3]) argsPlain 0
        = Except.ok [FileEntryV2.mk '-' (permString mNoCanon.readonly) 3
            (display argsPlain.human_readable 3)
            (if mNoCanon.canonOk then mNoCanon.canonPath else mNoCanon.rawPath) "a"
            mNoCanon.created])
    ∧ ((walkList false false "foo" [FsTree.dir "foo1" mNoCanon true []]).map
        (fun e => e.path) = [if mNoCanon.canonOk then mNoCanon.canonPath else ""])
    ∧ ((walkListV2 false false "foo" 0 [FsTree.dir "foo1" mNoCanon true []]).map
        (fun e => e.path) = [if mNoCanon.canonOk then mNoCanon.canonPath else ""]) :=
  ⟨(C7_canon_fallback_amended argsPlain "root" "a" mGood mNoCanon 3 false false "foo" 0
      "foo1" mNoCanon true [] rfl rfl rfl rfl rfl rfl rfl rfl).1,
   (C7_canon_fallback_amended argsPlain "root" "a" mGood mNoCanon 3 false false "foo" 0
      "foo1" mNoCanon true [] rfl rfl rfl rfl rfl rfl rfl rfl).2.1 rfl,
   (C7_canon_fallback_amended argsPlain "root" "a" mGood mNoCanon 3 false false "foo" 0
      "foo1" mNoCanon true [] rfl rfl rfl rfl rfl rfl rfl rfl).2.2.1,
   (C7_canon_fallback_amended argsPlain "root" "a" mGood mNoCanon 3 false false "foo" 0
      "foo1" mNoCanon true [] rfl rfl rfl rfl rfl rfl rfl rfl).2.2.2⟩

/-- Claim C8 (counterexample): the permission summary of a produced Entry
is the 5-character string "r-w-x" (read-only child) or " -w-x" (writable
child), not a 3-character summary. -/
theorem C8_permissions_counterexample :
    ((entriesOfV1 (list_directory rootPerm argsPlain)).map (fun e => e.permissions)
      = ["r-w-x", " -w-x"])
    ∧ ("r-w-x" : String).length = 5
    ∧ ¬ (("r-w-x" : String).length = 3) := by
  refine ⟨rfl, rfl, by decide⟩

/-- Claim C8 (amended): every Entry produced by either lister (and hence
by the walkers they invoke) carries one of the two fixed 5-character
permission summaries "r-w-x" or " -w-x"; which one depends solely on the
entry's read-only bit, and nothing else about real POSIX permissions is
reflected. -/
theorem C8_permissions_amended (root : FsTree) (args : Cli) (now : Nat)
    (rn cn : String) (rm cm : NodeMeta) (sz : Nat)
    (hlf : args.long_format = true) (hn : args.name = none) (hs : args.sort = false)
    (hent : cm.entOk = true) (hmeta : cm.metaOk = true) :
    ((entriesOfV1 (list_directory root args)).all
        (fun e => e.permissions == "r-w-x" || e.permissions == " -w-x") = true)
    ∧ ((entriesOfV2 (list_directory_with_events root args now)).all
        (fun e => e.permissions == "r-w-x" || e.permissions == " -w-x") = true)
    ∧ ((entriesOfV1 (list_directory (FsTree.dir rn rm true [FsTree.file cn cm sz]) args)).map
        (fun e => e.permissions) = [if cm.readonly then "r-w-x" else " -w-x"]) := by
  refine ⟨?_, ?_, ?_⟩
  · refine listV1_all root args _ (fun c => ?_) (fun nm m rOk ccs => ?_)
    · simp [mkListEntry, permString_eq]
    · simp [mkWalkEntry, permString_eq]
  · refine listV2_all root args now _ (fun c e hmk => ?_) (fun nm m rOk ccs => ?_)
    · simp only [mkListEntryV2] at hmk
      split at hmk
      · cases hmk
        simp [permString_eq]
      · cases hmk
    · simp [mkWalkEntryV2, permString_eq]
  · rw [list_directory]
    simp [hlf, hn, hs, hent, hmeta, processName, findChild, mkListEntry,
      FsTree.name, FsTree.meta, FsTree.isDir, List.insertionSort, List.orderedInsert,
      entriesOfV1, permString_eq]

/-- Claim C8 (witness): the amended theorem applied to the mixed
read-only/writable root. -/
theorem C8_permissions_witness :
    ((entriesOfV1 (list_directory rootPerm argsPlain)).all
        (fun e => e.permissions == "r-w-x" || e.permissions == " -w-x") = true)
    ∧ ((entriesOfV2 (list_directory_with_events rootPerm argsPlain 0)).all
        (fun e => e.permissions == "r-w-x" || e.permissions == " -w-x") = true)
    ∧ ((entriesOfV1 (list_directory (FsTree.dir "root" mGood true
          [FsTree.file "a" mReadonly 1]) argsPlain)).map
        (fun e => e.permissions) = [if mReadonly.readonly then "r-w-x" else " -w-x"]) :=
  C8_permissions_amended rootPerm argsPlain 0 "root" "a" mGood mReadonly 1
    rfl rfl rfl rfl rfl

/-- Claim C10 (counterexample): in the event-driven variant a
creation-time read failure on a child ABORTS the scan with an error
(`metadata.created()?`), and the name-filter walker substitutes the
current time (here 777) for a failed creation-time read — the entry does
not carry an empty optional timestamp. -/
theorem C10_created_time_counterexample :
    (list_directory_with_events rootBadCreated argsPlain 0
      = Except.error "created failed")
    ∧ ((walkListV2 false false "foo" 777 [FsTree.dir "foo1" mNoCreated true []]).map
        (fun e => e.created_time) = [777]) := by
  refine ⟨rfl, ?_⟩
  simp [walkListV2, mkWalkEntryV2, mNoCreated, strContainsSub]

/-- Claim C10 (amended): `created_time` is a required (non-optional)
field.  In the event-driven lister a child whose creation-time read fails
aborts the whole scan with that error; in the name-filter walker the
produced entry's `created_time` is the genuine timestamp when the read
succeeds and the fabricated current time when it fails — a caller cannot
distinguish a missing timestamp from a genuine one. -/
theorem C10_created_time_amended (args : Cli) (rn cn : String) (rm cm : NodeMeta)
    (sz : Nat) (par hr : Bool) (filt : String) (now : Nat) (nm : String)
    (m : NodeMeta) (rOk : Bool) (ccs : List FsTree)
    (hlf : args.long_format = true) (hn : args.name = none)
    (hent : cm.entOk = true) (hmeta : cm.metaOk = true)
    (hncr : cm.createdOk = false)
    (hEM : m.entOk = true) (hM : m.metaOk = true)
    (hC : strContainsSub nm filt = true) :
    (list_directory_with_events (FsTree.dir rn rm true [FsTree.file cn cm sz]) args now
      = Except.error "created failed")
    ∧ ((walkListV2 par hr filt now [FsTree.dir nm m rOk ccs]).map
        (fun e => e.created_time) = [if m.createdOk then m.created else now]) := by
  constructor
  · rw [list_directory_with_events]
    simp [hlf, hn, hent, hmeta, hncr, collectV2, processNameV2, findChild,
      mkListEntryV2, FsTree.name, FsTree.meta, FsTree.isDir, Except.map]
  · simp [walkListV2, hEM, hM, hC, mkWalkEntryV2]

/-- Claim C10 (witness): the amended theorem applied to a root with one
child whose creation-time read fails and a walker call on one matching
directory with a failed creation-time read. -/
theorem C10_created_time_witness :
    (list_directory_with_events (FsTree.dir "root" mGood true
        [FsTree.file "a" mNoCreated 3]) argsPlain 0 = Except.error "created failed")
    ∧ ((walkListV2 false false "foo" 777 [FsTree.dir "foo1" mNoCreated true []]).map
        (fun e => e.created_time)
      = [if mNoCreated.createdOk then mNoCreated.created else 777]) :=
  C10_created_time_amended argsPlain "root" "a" mGood mNoCreated 3 false false "foo" 777
    "foo1" mNoCreated true [] rfl rfl rfl rfl rfl rfl rfl rfl

end DiskSight
